import Mathlib

/-!
Verification development for the `wccg-context` package, a minimal
implementation of the W3C Web Components Community Group Context Protocol.

The embedding covers:
- the two event classes `ContextRequestEvent` (src/context-request-event.ts)
  and `ContextProviderEvent` (src/context-provider-event.ts), as Lean
  structures whose constructor functions mirror the TypeScript constructors;
- the module-load guard of the entry point (mod.ts / browser.ts);
- the provider registration helper `registerContextProvider` and its inner
  `contextListener` (src/context-providers.ts);
- an operational model of DOM event dispatch (bubbling along the parent
  chain, stopImmediatePropagation) together with the resolution buffer
  ("ContextRoot"), which is referenced by the repository's documentation
  but whose code is not part of the sources; the buffer is modelled from
  the specification (late-resolution replay on provider announcement).

JavaScript `undefined` is modelled as `Option.none`; DOM nodes as `Nat`
identifiers; a consumer callback as a `Nat` identifier whose invocations are
logged as `(callbackId, value)` pairs.
-/

namespace WccgContext

/-- Context identifiers: an opaque, equality-comparable token, either a
string or a symbol-like unique value.  A string and a symbol-like token of
the same spelling are distinct constructors, hence never equal: this models
the strict (`!==`, no-coercion) comparison used by the TypeScript code. -/
inductive Ctx where
  | str (s : String)
  | sym (s : String)
deriving DecidableEq, Repr

/-- Context values are opaque payloads; `Nat` suffices for the claims. -/
abbrev Value := Nat

/-- Embedding of the `ContextRequestEvent` class
(src/context-request-event.ts).  `eventType`, `bubbles`, `composed` record
the arguments passed to the `Event` superclass constructor.  The consumer
callback is identified by `cbId`; invoking it is modelled as logging a
`(cbId, value)` pair. -/
structure ContextRequestEvent where
  eventType : String
  bubbles : Bool
  composed : Bool
  context : Ctx
  contextTarget : Nat
  cbId : Nat
  subscribe : Bool
deriving DecidableEq, Repr

/-- The `ContextRequestEvent` constructor:
`super('context-request', {bubbles: true, composed: true})`, then
`this.subscribe = subscribe ?? false` (the `subscribe` parameter is
optional, modelled as `Option Bool` with `none` for an absent or
`undefined` argument). -/
def mkContextRequestEvent (context : Ctx) (contextTarget : Nat) (cbId : Nat)
    (subscribe : Option Bool) : ContextRequestEvent :=
  { eventType := "context-request"
  , bubbles := true
  , composed := true
  , context := context
  , contextTarget := contextTarget
  , cbId := cbId
  , subscribe := subscribe.getD false }

/-- Embedding of the `ContextProviderEvent` class
(src/context-provider-event.ts). -/
structure ContextProviderEvent where
  eventType : String
  bubbles : Bool
  composed : Bool
  context : Ctx
  contextTarget : Nat
deriving DecidableEq, Repr

/-- The `ContextProviderEvent` constructor:
`super('context-provider', {bubbles: true, composed: true})`. -/
def mkContextProviderEvent (context : Ctx) (contextTarget : Nat) :
    ContextProviderEvent :=
  { eventType := "context-provider"
  , bubbles := true
  , composed := true
  , context := context
  , contextTarget := contextTarget }

/-- A host environment as observed by the module guard in mod.ts /
browser.ts: whether `globalThis.HTMLElement` and `globalThis.Event` are
defined. -/
structure HostEnv where
  hasHTMLElement : Bool
  hasEvent : Bool
deriving DecidableEq, Repr

/-- The module-load guard of mod.ts (and the identical guard of
browser.ts): warn if `HTMLElement` is undefined, then throw if `Event` is
undefined, otherwise finish loading.  On success the returned `Bool`
records whether the warning was emitted. -/
def moduleLoad (env : HostEnv) : Except String Bool :=
  let warned := !env.hasHTMLElement
  if !env.hasEvent then
    Except.error "wccg-context requires Event API (browser/DOM environment)"
  else
    Except.ok warned

/-- The outcome of resolving a provider's value for one request: the
resolved value (`none` models `undefined`), or an exception / rejected
promise (`err`). -/
inductive HandlerResult where
  | ok (v : Option Value)
  | err
deriving DecidableEq, Repr

/-- The `handlerOrValue` argument of `registerContextProvider`: either a
static value (which may itself be `undefined`, i.e. `none`) or a handler
function invoked per request (which may throw or reject). -/
inductive HandlerOrValue where
  | value (v : Option Value)
  | handler (f : ContextRequestEvent → HandlerResult)

/-- `isHandler ? await handlerOrValue(event) : handlerOrValue` — the value
computation inside the listener's `try` block. -/
def resolve : HandlerOrValue → ContextRequestEvent → HandlerResult
  | HandlerOrValue.value v, _ => HandlerResult.ok v
  | HandlerOrValue.handler f, e => f e

/-- Whether an effect of the listener happened synchronously during the
dispatch of the triggering event (before `dispatchEvent` returned), or was
deferred to a later microtask.  An `async` function body runs synchronously
until its first executed `await`; the listener's only `await` is on the
handler call, so the static-value path is entirely synchronous, while any
delivery on the handler path happens after the `await`, i.e. deferred. -/
inductive Timing where
  | sync
  | deferred
deriving DecidableEq, Repr

/-- The observable outcome of one `contextListener` invocation on one
event: whether `stopImmediatePropagation` was called on the event, which
value (if any) the request's callback was invoked with, when the delivery
happened, and whether `console.error` was called.  The listener itself
never throws: the `try`/`catch` swallows every error, so the outcome is a
total function of the inputs. -/
structure ListenerOutcome where
  stopped : Bool
  delivered : Option Value
  timing : Timing
  logged : Bool
deriving DecidableEq, Repr

/-- The configuration captured by one `registerContextProvider` call's
listener closure: the registered context, the static value or handler, and
the (already defaulted) `stopPropagation` option. -/
structure ProviderCfg where
  context : Ctx
  handlerOrValue : HandlerOrValue
  stopPropagation : Bool

/-- Timing of the listener's effects as a function of the provider kind:
the listener's only `await` is on the handler call, so the static-value
path never suspends (`sync`) while the handler path continues in a later
microtask (`deferred`). -/
def hvTiming : HandlerOrValue → Timing
  | HandlerOrValue.value _ => Timing.sync
  | HandlerOrValue.handler _ => Timing.deferred

/-- Embedding of the `contextListener` closure inside
`registerContextProvider` (src/context-providers.ts):

1. if `event.context !== context`, return without touching the event;
2. if `stopPropagation`, call `stopImmediatePropagation()` — note this
   happens before the value is resolved, so it applies to every matching
   event regardless of the eventual value;
3. resolve the value (awaiting the handler if it is a function); if the
   value is not `undefined`, invoke `event.callback(value)`;
4. any error thrown or rejected inside the `try` is caught and logged via
   `console.error`, never re-thrown.

The `timing` field records whether the `await` on the handler was executed
(see `Timing`): the non-matching early return and the whole static-value
path run synchronously inside the dispatch. -/
def contextListener (cfg : ProviderCfg) (e : ContextRequestEvent) :
    ListenerOutcome :=
  if e.context ≠ cfg.context then
    { stopped := false, delivered := none, timing := Timing.sync
    , logged := false }
  else
    match resolve cfg.handlerOrValue e with
    | HandlerResult.ok (some v) =>
      { stopped := cfg.stopPropagation, delivered := some v
      , timing := hvTiming cfg.handlerOrValue, logged := false }
    | HandlerResult.ok none =>
      { stopped := cfg.stopPropagation, delivered := none
      , timing := hvTiming cfg.handlerOrValue, logged := false }
    | HandlerResult.err =>
      { stopped := cfg.stopPropagation, delivered := none
      , timing := hvTiming cfg.handlerOrValue, logged := true }

/-- The `ProviderOptions` bag of `registerContextProvider`: `none` models
an absent field.  Defaults (applied by destructuring in the source):
`target = document.body`, `stopPropagation = true`.  The remaining
`AddEventListenerOptions` fields are passed through unchanged and are not
modelled. -/
structure ProviderOptions where
  target : Option Nat := none
  stopPropagation : Option Bool := none

/-- A DOM-like host: a parent pointer per node (the bubble path), a fuel
bound on parent-chain length (any finite tree admits one), and the
`document.body` node. -/
structure DomEnv where
  parent : Nat → Option Nat
  fuel : Nat
  documentBody : Nat

/-- The propagation path of an event dispatched at a node: the node itself
followed by its ancestors, as far as `fuel` reaches.  A bubbling, composed
event is seen by listeners on exactly these nodes, in this order. -/
def propPath (parent : Nat → Option Nat) : Nat → Nat → List Nat
  | 0, n => [n]
  | fuel + 1, n =>
    n :: (match parent n with
      | none => []
      | some p => propPath parent fuel p)

/-- `node.getRootNode()`: the end of the parent chain starting at the node
(the document, for an element attached to it). -/
def getRootNode (parent : Nat → Option Nat) : Nat → Nat → Nat
  | 0, n => n
  | fuel + 1, n =>
    match parent n with
    | none => n
    | some p => getRootNode parent fuel p

/-- One externally visible effect of a `registerContextProvider` call, in
the order the call performs them. -/
inductive RegEffect where
  | addListener (node : Nat) (context : Ctx)
  | dispatchProviderEvent (node : Nat) (ev : ContextProviderEvent)
deriving DecidableEq, Repr

/-- The effect trace of one `registerContextProvider` call
(src/context-providers.ts): destructure the options (`target` defaults to
`document.body`), install the request listener on `target.getRootNode()`
(the `|| document?.body` fallback is dead in a DOM host, where
`getRootNode()` always returns a node), then dispatch
`new ContextProviderEvent(context, target)` at `target` — all before the
call returns.  The `handlerOrValue` argument is captured by the listener
closure and does not influence the effect trace. -/
def registerContextProviderEffects (env : DomEnv) (context : Ctx)
    (handlerOrValue : HandlerOrValue) (opts : ProviderOptions) :
    List RegEffect :=
  let target := opts.target.getD env.documentBody
  let listenerTarget := getRootNode env.parent env.fuel target
  [ RegEffect.addListener listenerTarget context
  , RegEffect.dispatchProviderEvent target
      (mkContextProviderEvent context target) ]

/-- Modelled from the spec: the persisted form of an unanswered request
signal inside the resolution buffer ("RequestRecord", spec §3); the
`ContextRoot` class holding these records is referenced by the
repository's documentation but its code is not among the sources. -/
structure RequestRecord where
  context : Ctx
  originNode : Nat
  cbId : Nat
  subscribe : Bool
deriving DecidableEq, Repr

/-- A provider-side request listener as installed by
`registerContextProvider`: the node it is attached to
(`target.getRootNode()`) and the captured configuration. -/
structure Listener where
  node : Nat
  cfg : ProviderCfg

/-- The whole system: the host tree, the node the resolution buffer is
attached to (conventionally `document.body`), the provider listeners in
installation order, the buffer's pending records, and the log of callback
invocations.  The buffer (`rootNode`, `pending`) is modelled from the
spec (§4.2), the listeners from src/context-providers.ts. -/
structure Sys where
  parent : Nat → Option Nat
  fuel : Nat
  rootNode : Nat
  listeners : List Listener
  pending : List RequestRecord
  deliveries : List (Nat × Value)

/-- The state threaded through one request-event dispatch: whether some
listener called `stopImmediatePropagation`, the callback invocations made
during the dispatch, and the records the resolution buffer added. -/
structure DSt where
  stopped : Bool
  deliveries : List (Nat × Value)
  buffered : List RequestRecord
deriving DecidableEq, Repr

/-- The callback invocations one listener outcome contributes: invoking
`event.callback(value)` is logged as `(event.cbId, value)`. -/
def deliveriesOf (e : ContextRequestEvent) (out : ListenerOutcome) :
    List (Nat × Value) :=
  match out.delivered with
  | some v => [(e.cbId, v)]
  | none => []

/-- Run one provider listener during dispatch at `node`: skipped when the
event is already stopped (`stopImmediatePropagation` semantics) or when the
listener is attached to a different node; otherwise `contextListener`
decides stopping and delivery. -/
def runListenerStep (e : ContextRequestEvent) (node : Nat) (st : DSt)
    (l : Listener) : DSt :=
  if st.stopped then st
  else if l.node = node then
    let out := contextListener l.cfg e
    { st with
        stopped := out.stopped
      , deliveries := st.deliveries ++ deliveriesOf e out }
  else st

/-- Modelled from the spec: the `RequestRecord` the resolution buffer
stores for an unanswered request signal — same context, origin node,
callback and subscribe flag (spec §3). -/
def recordOf (e : ContextRequestEvent) : RequestRecord :=
  { context := e.context, originNode := e.contextTarget
  , cbId := e.cbId, subscribe := e.subscribe }

/-- Modelled from the spec: the resolution buffer's terminal catch-all at
its node — when the dispatch reaches the buffer's node still unstopped
(and `buffering` is on), store a `RequestRecord`, without delivering and
without stopping propagation (spec §4.2, request algorithm). -/
def bufferStep (rootNode : Nat) (buffering : Bool)
    (e : ContextRequestEvent) (st : DSt) (n : Nat) : DSt :=
  if buffering ∧ st.stopped = false ∧ n = rootNode then
    { st with buffered := st.buffered ++ [recordOf e] }
  else st

/-- Modelled from the spec: walk the propagation path of a request event,
running the provider listeners at each node (in installation order), then
the resolution buffer's catch-all (`bufferStep`).  Replay re-dispatches
run with `buffering` off: the buffer manages replayed records through its
own bookkeeping (spec §4.2, announcement algorithm, steps 3–4) rather
than by re-catching them. -/
def dispatchGo (ls : List Listener) (rootNode : Nat) (buffering : Bool)
    (e : ContextRequestEvent) : List Nat → DSt → DSt
  | [], st => st
  | n :: rest, st =>
    dispatchGo ls rootNode buffering e rest
      (bufferStep rootNode buffering e (ls.foldl (runListenerStep e n) st) n)

/-- Dispatch a request event at `origin`: bubble along the propagation
path, then fold the dispatch outcome into the system (callback invocations
are appended to the log, records caught by the buffer join `pending`). -/
def dispatchRequest (sys : Sys) (buffering : Bool)
    (e : ContextRequestEvent) (origin : Nat) : Sys :=
  let st := dispatchGo sys.listeners sys.rootNode buffering e
    (propPath sys.parent sys.fuel origin)
    { stopped := false, deliveries := [], buffered := [] }
  { sys with
      deliveries := sys.deliveries ++ st.deliveries
    , pending := sys.pending ++ st.buffered }

/-- Modelled from the spec: the fresh request signal the buffer
re-dispatches for a pending record — a new signal instance with the same
`context`/`originNode`/`deliver`/`subscribe` (spec §4.2, announcement
algorithm, step 2). -/
def freshRequest (r : RequestRecord) : ContextRequestEvent :=
  mkContextRequestEvent r.context r.originNode r.cbId (some r.subscribe)

/-- Modelled from the spec: the dispatch of one replayed record, raised
directly at the announcing node (spec §4.2, announcement algorithm,
step 2), with the buffer's own catch-all off. -/
def replayDispatch (sys : Sys) (node : Nat) (r : RequestRecord) : DSt :=
  dispatchGo sys.listeners sys.rootNode false (freshRequest r)
    (propPath sys.parent sys.fuel node)
    { stopped := false, deliveries := [], buffered := [] }

/-- Modelled from the spec: the buffer's replay pass for an announcement of
context `C` at `node` — scan pending records in arrival order; for each
record of context `C`, re-dispatch a fresh request at the announcing node;
drop the record when the re-dispatch was satisfied (stopped) and the record
does not subscribe, keep it otherwise (spec §4.2, announcement algorithm,
steps 1–4).  Returns the callback invocations made and the records kept. -/
def replayAll (sys : Sys) (node : Nat) (C : Ctx) :
    List RequestRecord → List (Nat × Value) × List RequestRecord
  | [] => ([], [])
  | r :: rs =>
    if r.context = C then
      ((replayDispatch sys node r).deliveries ++ (replayAll sys node C rs).1,
       (if (replayDispatch sys node r).stopped = true ∧ r.subscribe = false
        then [] else [r]) ++ (replayAll sys node C rs).2)
    else
      ((replayAll sys node C rs).1, r :: (replayAll sys node C rs).2)

/-- Modelled from the spec: dispatch of a `ContextProviderEvent` at
`origin`.  The announcement bubbles (nothing stops it); if the buffer's
node lies on its propagation path, the buffer reacts synchronously with a
replay pass at the announcing node (`ev.contextTarget`), otherwise the
announcement has no observable effect (announcements are not persisted,
spec §3). -/
def dispatchProviderEvent (sys : Sys) (ev : ContextProviderEvent)
    (origin : Nat) : Sys :=
  if sys.rootNode ∈ propPath sys.parent sys.fuel origin then
    { sys with
        pending := (replayAll sys ev.contextTarget ev.context sys.pending).2
      , deliveries := sys.deliveries ++
          (replayAll sys ev.contextTarget ev.context sys.pending).1 }
  else sys

/-- The system-level effect of one `registerContextProvider` call
(src/context-providers.ts): append the request listener at
`target.getRootNode()`, then dispatch
`new ContextProviderEvent(context, target)` at `target`. -/
def registerContextProviderSys (sys : Sys) (context : Ctx)
    (handlerOrValue : HandlerOrValue) (target : Nat)
    (stopPropagation : Bool) : Sys :=
  let listenerTarget := getRootNode sys.parent sys.fuel target
  let sys1 := { sys with listeners := sys.listeners ++
    [{ node := listenerTarget
     , cfg := { context := context, handlerOrValue := handlerOrValue
              , stopPropagation := stopPropagation } }] }
  dispatchProviderEvent sys1 (mkContextProviderEvent context target) target

/-- Concrete input: a provider for the string context "theme" whose handler
answers every request with the "no answer" sentinel (`undefined`), all
options left at their defaults (`stopPropagation = true`). -/
def sentinelCfg : ProviderCfg :=
  { context := Ctx.str "theme"
  , handlerOrValue := HandlerOrValue.handler (fun _ => HandlerResult.ok none)
  , stopPropagation := true }

/-- Concrete input: a request for the string context "theme" constructed
without a `subscribe` argument. -/
def themeRequest : ContextRequestEvent :=
  mkContextRequestEvent (Ctx.str "theme") 1 0 none

/-- Concrete input: a provider for "theme" with the static value `5`. -/
def staticCfg : ProviderCfg :=
  { context := Ctx.str "theme"
  , handlerOrValue := HandlerOrValue.value (some 5)
  , stopPropagation := true }

/-- Concrete input: a provider for "theme" whose handler resolves to `9`. -/
def deferCfg : ProviderCfg :=
  { context := Ctx.str "theme"
  , handlerOrValue := HandlerOrValue.handler (fun _ => HandlerResult.ok (some 9))
  , stopPropagation := true }

/-- Concrete input: a provider for "theme" whose handler always throws. -/
def throwingCfg : ProviderCfg :=
  { context := Ctx.str "theme"
  , handlerOrValue := HandlerOrValue.handler (fun _ => HandlerResult.err)
  , stopPropagation := true }

/-- Concrete input: a three-node host tree — node 0 is the root
(`document`), nodes 1 and 2 are siblings attached under it — with
`document.body = 0`. -/
def domEnvW : DomEnv :=
  { parent := fun k => if k = 0 then none else some 0
  , fuel := 3
  , documentBody := 0 }

/-- Concrete input: a system over the `domEnvW` tree with the resolution
buffer attached at the root, no providers registered, nothing pending and
nothing delivered. -/
def sysW : Sys :=
  { parent := fun k => if k = 0 then none else some 0
  , fuel := 3
  , rootNode := 0
  , listeners := []
  , pending := []
  , deliveries := [] }

theorem contextListener_untouched (cfg : ProviderCfg)
    (e : ContextRequestEvent) (h : ¬ e.context = cfg.context) :
    contextListener cfg e =
      { stopped := false, delivered := none, timing := Timing.sync
      , logged := false } := by
  simp [contextListener, h]

theorem contextListener_matched (cfg : ProviderCfg)
    (e : ContextRequestEvent) (h : e.context = cfg.context) :
    contextListener cfg e =
      { stopped := cfg.stopPropagation
      , delivered := match resolve cfg.handlerOrValue e with
          | HandlerResult.ok (some v) => some v
          | HandlerResult.ok none => none
          | HandlerResult.err => none
      , timing := hvTiming cfg.handlerOrValue
      , logged := match resolve cfg.handlerOrValue e with
          | HandlerResult.ok _ => false
          | HandlerResult.err => true } := by
  unfold contextListener
  rw [if_neg (by simp [h])]
  cases hres : resolve cfg.handlerOrValue e with
  | ok v => cases v <;> simp [hres]
  | err => simp [hres]

/-- C2: the claim asserts that when a matching handler resolves to the
"no answer" sentinel (`undefined`), "the event's propagation is not
stopped".  In the source, `stopImmediatePropagation()` is called before
the handler is awaited, so with the default `stopPropagation = true` the
propagation of a matching event is stopped regardless of the value the
handler later resolves: at a matching "theme" request answered by the
sentinel, the callback is indeed not invoked, but the event is stopped —
refuting the claim as stated. -/
theorem sentinel_counterexample :
    (contextListener sentinelCfg themeRequest).delivered = none
    ∧ (contextListener sentinelCfg themeRequest).stopped = true := by
  decide

/-- C2 (amended): when a matching handler resolves to the sentinel
(`undefined`), the request's callback is not invoked for that event;
whether propagation is stopped is decided solely by the `stopPropagation`
option (default `true`), before the value is resolved — a farther ancestor
can answer only when `stopPropagation` is `false`. -/
theorem sentinel_no_delivery (cfg : ProviderCfg) (e : ContextRequestEvent)
    (h : e.context = cfg.context)
    (hres : resolve cfg.handlerOrValue e = HandlerResult.ok none) :
    (contextListener cfg e).delivered = none
    ∧ (contextListener cfg e).stopped = cfg.stopPropagation := by
  rw [contextListener_matched cfg e h, hres]
  exact ⟨rfl, rfl⟩

/-- Witness for `sentinel_no_delivery` at the concrete sentinel provider
and matching request. -/
theorem sentinel_no_delivery_witness :
    themeRequest.context = sentinelCfg.context
    ∧ resolve sentinelCfg.handlerOrValue themeRequest = HandlerResult.ok none
    ∧ (contextListener sentinelCfg themeRequest).delivered = none
    ∧ (contextListener sentinelCfg themeRequest).stopped
        = sentinelCfg.stopPropagation :=
  ⟨rfl, rfl, sentinel_no_delivery sentinelCfg themeRequest rfl rfl⟩

/-- C3: when a matching handler throws or rejects, the listener recovers
locally — the error is logged (`console.error`) and the consumer's
callback is not invoked for that attempt.  The listener is a total
function of its inputs (the `try`/`catch` swallows the error), so nothing
reaches the event dispatcher. -/
theorem delivery_error_recovered (cfg : ProviderCfg)
    (e : ContextRequestEvent) (h : e.context = cfg.context)
    (herr : resolve cfg.handlerOrValue e = HandlerResult.err) :
    (contextListener cfg e).delivered = none
    ∧ (contextListener cfg e).logged = true := by
  rw [contextListener_matched cfg e h, herr]
  exact ⟨rfl, rfl⟩

/-- Witness for `delivery_error_recovered` at a provider whose handler
always throws. -/
theorem delivery_error_recovered_witness :
    themeRequest.context = throwingCfg.context
    ∧ resolve throwingCfg.handlerOrValue themeRequest = HandlerResult.err
    ∧ (contextListener throwingCfg themeRequest).delivered = none
    ∧ (contextListener throwingCfg themeRequest).logged = true :=
  ⟨rfl, rfl, delivery_error_recovered throwingCfg themeRequest rfl rfl⟩

/-- C4: in a host without the DOM `Event` API (as in any host lacking the
DOM APIs altogether), evaluating the module entry point throws
immediately: loading fails with the error the guard raises, and the
system refuses to come up. -/
theorem no_event_api_fatal (env : HostEnv) (h : env.hasEvent = false) :
    moduleLoad env =
      Except.error
        "wccg-context requires Event API (browser/DOM environment)" := by
  simp [moduleLoad, h]

/-- Witness for `no_event_api_fatal` at the fully DOM-less host. -/
theorem no_event_api_fatal_witness :
    (HostEnv.mk false false).hasEvent = false
    ∧ moduleLoad (HostEnv.mk false false) =
        Except.error
          "wccg-context requires Event API (browser/DOM environment)" :=
  ⟨rfl, no_event_api_fatal (HostEnv.mk false false) rfl⟩

/-- C5: every `registerContextProvider` call performs exactly these two
effects in this order before returning: install the request listener, then
dispatch exactly one `ContextProviderEvent` carrying the registered
context, at `options.target` (default `document.body`), with that node as
`contextTarget`. -/
theorem register_announces_once (env : DomEnv) (context : Ctx)
    (handlerOrValue : HandlerOrValue) (opts : ProviderOptions) :
    registerContextProviderEffects env context handlerOrValue opts =
      [ RegEffect.addListener
          (getRootNode env.parent env.fuel (opts.target.getD env.documentBody))
          context
      , RegEffect.dispatchProviderEvent (opts.target.getD env.documentBody)
          { eventType := "context-provider", bubbles := true
          , composed := true, context := context
          , contextTarget := opts.target.getD env.documentBody } ] := rfl

/-- C6: a listener whose registered context differs from the event's
leaves the event untouched — no stop, no delivery, no logging; and a
string context and a symbol-like context of the same spelling are never
equal, so no implicit coercion can make such a listener answer. -/
theorem listener_strict_context_match :
    (∀ (cfg : ProviderCfg) (e : ContextRequestEvent),
      ¬ e.context = cfg.context →
      contextListener cfg e =
        { stopped := false, delivered := none, timing := Timing.sync
        , logged := false })
    ∧ ∀ s : String, ¬ (Ctx.str s = Ctx.sym s) :=
  ⟨fun cfg e h => contextListener_untouched cfg e h,
   fun _ h => Ctx.noConfusion h⟩

/-- Witness for `listener_strict_context_match`: a listener registered for
the symbol-like token "theme" leaves a request for the string "theme"
untouched. -/
theorem listener_strict_context_match_witness :
    contextListener
        { context := Ctx.sym "theme"
        , handlerOrValue := HandlerOrValue.value (some 5)
        , stopPropagation := true }
        themeRequest =
      { stopped := false, delivered := none, timing := Timing.sync
      , logged := false } :=
  listener_strict_context_match.1 _ _ (by decide)

/-- C7: both event constructors pass `bubbles: true, composed: true` to
the `Event` superclass, so request and announcement signals bubble and
cross shadow boundaries. -/
theorem events_bubble_and_compose (c : Ctx) (t cb : Nat)
    (s : Option Bool) :
    ((mkContextRequestEvent c t cb s).bubbles = true
      ∧ (mkContextRequestEvent c t cb s).composed = true)
    ∧ ((mkContextProviderEvent c t).bubbles = true
      ∧ (mkContextProviderEvent c t).composed = true) :=
  ⟨⟨rfl, rfl⟩, ⟨rfl, rfl⟩⟩

/-- C8: for a matching request, a static (non-function) provider delivers
its value synchronously within the dispatch of the event, while any
delivery of a handler-function provider is deferred past the handler's
`await`. -/
theorem static_sync_handler_deferred (cfg : ProviderCfg)
    (e : ContextRequestEvent) (h : e.context = cfg.context) :
    (∀ v : Value, cfg.handlerOrValue = HandlerOrValue.value (some v) →
      (contextListener cfg e).delivered = some v
      ∧ (contextListener cfg e).timing = Timing.sync)
    ∧ (∀ f : ContextRequestEvent → HandlerResult,
        cfg.handlerOrValue = HandlerOrValue.handler f →
        (contextListener cfg e).timing = Timing.deferred) := by
  rw [contextListener_matched cfg e h]
  constructor
  · intro v hv
    rw [hv]
    exact ⟨rfl, rfl⟩
  · intro f hf
    rw [hf]
    rfl

/-- Witness for `static_sync_handler_deferred`: the static-value provider
`staticCfg` delivers `5` synchronously; the handler provider `deferCfg`
delivers in a deferred microtask. -/
theorem static_sync_handler_deferred_witness :
    ((contextListener staticCfg themeRequest).delivered = some 5
      ∧ (contextListener staticCfg themeRequest).timing = Timing.sync)
    ∧ (contextListener deferCfg themeRequest).timing = Timing.deferred :=
  ⟨(static_sync_handler_deferred staticCfg themeRequest rfl).1 5 rfl,
   (static_sync_handler_deferred deferCfg themeRequest rfl).2 _ rfl⟩

/-- C9: a `ContextRequestEvent` constructed without a `subscribe` argument
(or with `undefined`) has `subscribe = false`, never `undefined`. -/
theorem subscribe_defaults_to_false (c : Ctx) (t cb : Nat) :
    (mkContextRequestEvent c t cb none).subscribe = false := rfl

theorem getRootNode_mem_propPath (parent : Nat → Option Nat) :
    ∀ fuel n : Nat,
      getRootNode parent fuel n ∈ propPath parent fuel n := by
  intro fuel
  induction fuel with
  | zero =>
    intro n
    simp [getRootNode, propPath]
  | succ k ih =>
    intro n
    simp only [getRootNode, propPath]
    cases hp : parent n with
    | none => simp
    | some p => simpa using Or.inr (ih p)

/-- C10: the request listener of `registerContextProvider` is installed on
`target.getRootNode()`, not on the target itself; that node lies on the
propagation path of every node of the same root tree, so the provider
answers matching requests dispatched anywhere in that tree — including
from nodes that are not descendants of the target. -/
theorem listener_installed_on_root (env : DomEnv) (context : Ctx)
    (handlerOrValue : HandlerOrValue) (opts : ProviderOptions) (n : Nat)
    (hsame : getRootNode env.parent env.fuel n
      = getRootNode env.parent env.fuel (opts.target.getD env.documentBody)) :
    (registerContextProviderEffects env context handlerOrValue opts).head?
      = some (RegEffect.addListener
          (getRootNode env.parent env.fuel (opts.target.getD env.documentBody))
          context)
    ∧ getRootNode env.parent env.fuel (opts.target.getD env.documentBody)
        ∈ propPath env.parent env.fuel n := by
  refine ⟨rfl, ?_⟩
  rw [← hsame]
  exact getRootNode_mem_propPath env.parent env.fuel n

/-- Witness for `listener_installed_on_root` on the concrete `domEnvW`
tree: registering with `target := 1` installs the listener on the root
node 0 (not on 1), and node 0 lies on the propagation path of node 2,
which is a sibling — not a descendant — of the target. -/
theorem listener_installed_on_root_witness :
    getRootNode domEnvW.parent domEnvW.fuel 2
      = getRootNode domEnvW.parent domEnvW.fuel
          ((some 1 : Option Nat).getD domEnvW.documentBody)
    ∧ ((registerContextProviderEffects domEnvW (Ctx.str "theme")
          (HandlerOrValue.value (some 5)) { target := some 1 }).head?
        = some (RegEffect.addListener
            (getRootNode domEnvW.parent domEnvW.fuel
              (((some 1 : Option Nat)).getD domEnvW.documentBody))
            (Ctx.str "theme"))
      ∧ getRootNode domEnvW.parent domEnvW.fuel
            ((some 1 : Option Nat).getD domEnvW.documentBody)
          ∈ propPath domEnvW.parent domEnvW.fuel 2) :=
  ⟨by decide,
   listener_installed_on_root domEnvW (Ctx.str "theme")
     (HandlerOrValue.value (some 5)) { target := some 1 } 2 (by decide)⟩

theorem bufferStep_stopped (rootNode : Nat) (buffering : Bool)
    (e : ContextRequestEvent) (st : DSt) (n : Nat) :
    (bufferStep rootNode buffering e st n).stopped = st.stopped := by
  unfold bufferStep
  split <;> rfl

theorem bufferStep_deliveries (rootNode : Nat) (buffering : Bool)
    (e : ContextRequestEvent) (st : DSt) (n : Nat) :
    (bufferStep rootNode buffering e st n).deliveries = st.deliveries := by
  unfold bufferStep
  split <;> rfl

theorem bufferStep_buffered_mono (rootNode : Nat) (buffering : Bool)
    (e : ContextRequestEvent) (st : DSt) (n : Nat) (r : RequestRecord)
    (hr : r ∈ st.buffered) :
    r ∈ (bufferStep rootNode buffering e st n).buffered := by
  unfold bufferStep
  split
  · exact List.mem_append_left _ hr
  · exact hr

theorem runListenerStep_nonmatch (e : ContextRequestEvent) (node : Nat)
    (st : DSt) (l : Listener) (h : ¬ e.context = l.cfg.context) :
    runListenerStep e node st l = st := by
  unfold runListenerStep
  by_cases hs : st.stopped
  · simp [hs]
  · by_cases hn : l.node = node
    · simp only [hs, if_false, Bool.false_eq_true, if_neg, hn, if_true]
      rw [contextListener_untouched l.cfg e h]
      simp only [deliveriesOf, List.append_nil]
      cases st with
      | mk stopped deliveries buffered =>
        simp only [Bool.not_eq_true] at hs
        simp [hs]
    · simp [hs, hn]

theorem runListenerStep_deliveries_mono (e : ContextRequestEvent)
    (node : Nat) (st : DSt) (l : Listener) (d : Nat × Value)
    (hd : d ∈ st.deliveries) :
    d ∈ (runListenerStep e node st l).deliveries := by
  unfold runListenerStep
  by_cases hs : st.stopped
  · simp [hs, hd]
  · by_cases hn : l.node = node <;> simp [hs, hn, hd]

theorem runListenerStep_buffered (e : ContextRequestEvent) (node : Nat)
    (st : DSt) (l : Listener) :
    (runListenerStep e node st l).buffered = st.buffered := by
  unfold runListenerStep
  by_cases hs : st.stopped
  · simp [hs]
  · by_cases hn : l.node = node <;> simp [hs, hn]

theorem runListenersAt_nonmatch (ls : List Listener)
    (e : ContextRequestEvent) (node : Nat)
    (h : ∀ l ∈ ls, ¬ e.context = l.cfg.context) :
    ∀ st : DSt, ls.foldl (runListenerStep e node) st = st := by
  induction ls with
  | nil => intro st; rfl
  | cons l rest ih =>
    intro st
    rw [List.foldl_cons,
      runListenerStep_nonmatch e node st l (h l (List.mem_cons_self l rest))]
    exact ih (fun x hx => h x (List.mem_cons_of_mem l hx)) st

theorem runListenersAt_deliveries_mono (ls : List Listener)
    (e : ContextRequestEvent) (node : Nat) (d : Nat × Value) :
    ∀ st : DSt, d ∈ st.deliveries →
      d ∈ (ls.foldl (runListenerStep e node) st).deliveries := by
  induction ls with
  | nil => intro st hd; exact hd
  | cons l rest ih =>
    intro st hd
    rw [List.foldl_cons]
    exact ih _ (runListenerStep_deliveries_mono e node st l d hd)

theorem runListenersAt_buffered (ls : List Listener)
    (e : ContextRequestEvent) (node : Nat) :
    ∀ st : DSt, (ls.foldl (runListenerStep e node) st).buffered
      = st.buffered := by
  induction ls with
  | nil => intro st; rfl
  | cons l rest ih =>
    intro st
    rw [List.foldl_cons, ih, runListenerStep_buffered]

theorem dispatchGo_deliveries_mono (ls : List Listener) (rootNode : Nat)
    (buffering : Bool) (e : ContextRequestEvent) (d : Nat × Value) :
    ∀ (path : List Nat) (st : DSt), d ∈ st.deliveries →
      d ∈ (dispatchGo ls rootNode buffering e path st).deliveries := by
  intro path
  induction path with
  | nil => intro st hd; exact hd
  | cons n rest ih =>
    intro st hd
    simp only [dispatchGo]
    apply ih
    rw [bufferStep_deliveries]
    exact runListenersAt_deliveries_mono ls e n d st hd

theorem dispatchGo_buffered_mono (ls : List Listener) (rootNode : Nat)
    (buffering : Bool) (e : ContextRequestEvent) (r : RequestRecord) :
    ∀ (path : List Nat) (st : DSt), r ∈ st.buffered →
      r ∈ (dispatchGo ls rootNode buffering e path st).buffered := by
  intro path
  induction path with
  | nil => intro st hr; exact hr
  | cons n rest ih =>
    intro st hr
    simp only [dispatchGo]
    apply ih
    apply bufferStep_buffered_mono
    rw [runListenersAt_buffered]
    exact hr

theorem dispatchGo_nonmatch (ls : List Listener) (rootNode : Nat)
    (buffering : Bool) (e : ContextRequestEvent)
    (h : ∀ l ∈ ls, ¬ e.context = l.cfg.context) :
    ∀ (path : List Nat) (st : DSt),
      (dispatchGo ls rootNode buffering e path st).stopped = st.stopped
      ∧ (dispatchGo ls rootNode buffering e path st).deliveries
          = st.deliveries := by
  intro path
  induction path with
  | nil => intro st; exact ⟨rfl, rfl⟩
  | cons n rest ih =>
    intro st
    simp only [dispatchGo]
    rw [runListenersAt_nonmatch ls e n h st]
    rcases ih (bufferStep rootNode buffering e st n) with ⟨h1, h2⟩
    rw [h1, h2, bufferStep_stopped, bufferStep_deliveries]
    exact ⟨rfl, rfl⟩

theorem dispatchGo_buffers (ls : List Listener) (rootNode : Nat)
    (e : ContextRequestEvent)
    (h : ∀ l ∈ ls, ¬ e.context = l.cfg.context) :
    ∀ (path : List Nat) (st : DSt), st.stopped = false →
      rootNode ∈ path →
      recordOf e ∈ (dispatchGo ls rootNode true e path st).buffered := by
  intro path
  induction path with
  | nil =>
    intro st _ hmem
    exact absurd hmem (List.not_mem_nil rootNode)
  | cons n rest ih =>
    intro st hstop hmem
    simp only [dispatchGo]
    rw [runListenersAt_nonmatch ls e n h st]
    by_cases hn : n = rootNode
    · apply dispatchGo_buffered_mono
      unfold bufferStep
      rw [if_pos ⟨rfl, hstop, hn⟩]
      exact List.mem_append_right _ (List.mem_singleton.mpr rfl)
    · have hmem1 : rootNode ∈ rest := by
        rcases List.mem_cons.mp hmem with h0 | h0
        · exact absurd h0.symm hn
        · exact h0
      have hstep : bufferStep rootNode true e st n = st := by
        unfold bufferStep
        rw [if_neg (fun hc => hn hc.2.2)]
      rw [hstep]
      exact ih st hstop hmem1

theorem dispatchGo_delivers (ls : List Listener) (newL : Listener)
    (rootNode : Nat) (buffering : Bool) (e : ContextRequestEvent)
    (v : Value)
    (hold : ∀ l ∈ ls, ¬ e.context = l.cfg.context)
    (hmatch : e.context = newL.cfg.context)
    (hres : resolve newL.cfg.handlerOrValue e
      = HandlerResult.ok (some v)) :
    ∀ (path : List Nat) (st : DSt), st.stopped = false →
      newL.node ∈ path →
      (e.cbId, v) ∈
        (dispatchGo (ls ++ [newL]) rootNode buffering e path st).deliveries
      := by
  intro path
  induction path with
  | nil =>
    intro st _ hmem
    exact absurd hmem (List.not_mem_nil newL.node)
  | cons n rest ih =>
    intro st hstop hmem
    simp only [dispatchGo]
    rw [List.foldl_append, runListenersAt_nonmatch ls e n hold st]
    simp only [List.foldl_cons, List.foldl_nil]
    by_cases hn : newL.node = n
    · have hout : (runListenerStep e n st newL).deliveries
          = st.deliveries ++ [(e.cbId, v)] := by
        unfold runListenerStep
        rw [if_neg (by rw [hstop]; exact Bool.false_ne_true), if_pos hn,
          contextListener_matched newL.cfg e hmatch]
        simp [deliveriesOf, hres]
      apply dispatchGo_deliveries_mono
      rw [bufferStep_deliveries, hout]
      exact List.mem_append_right _ (List.mem_singleton.mpr rfl)
    · have hmem1 : newL.node ∈ rest := by
        rcases List.mem_cons.mp hmem with h0 | h0
        · exact absurd h0 hn
        · exact h0
      have hst : runListenerStep e n st newL = st := by
        unfold runListenerStep
        rw [if_neg (by rw [hstop]; exact Bool.false_ne_true), if_neg hn]
      rw [hst]
      exact ih (bufferStep rootNode buffering e st n)
        (by rw [bufferStep_stopped]; exact hstop) hmem1

theorem replayAll_delivers (sys : Sys) (node : Nat) (C : Ctx)
    (d : Nat × Value) :
    ∀ (pending : List RequestRecord) (r : RequestRecord), r ∈ pending →
      r.context = C → d ∈ (replayDispatch sys node r).deliveries →
      d ∈ (replayAll sys node C pending).1 := by
  intro pending
  induction pending with
  | nil =>
    intro r hr
    exact absurd hr (List.not_mem_nil r)
  | cons r0 rs ih =>
    intro r hr hC hd
    rcases List.mem_cons.mp hr with h0 | h0
    · subst h0
      simp only [replayAll]
      rw [if_pos hC]
      exact List.mem_append_left _ hd
    · simp only [replayAll]
      by_cases hc0 : r0.context = C
      · rw [if_pos hc0]
        exact List.mem_append_right _ (ih r h0 hC hd)
      · rw [if_neg hc0]
        exact ih r h0 hC hd

theorem dispatchProviderEvent_delivers (sys : Sys) (C : Ctx)
    (target : Nat) (r : RequestRecord) (v : Value)
    (hroot : sys.rootNode ∈ propPath sys.parent sys.fuel target)
    (hr : r ∈ sys.pending) (hC : r.context = C)
    (hd : (r.cbId, v) ∈ (replayDispatch sys target r).deliveries) :
    (r.cbId, v) ∈
      (dispatchProviderEvent sys (mkContextProviderEvent C target)
        target).deliveries := by
  unfold dispatchProviderEvent
  rw [if_pos hroot]
  exact List.mem_append_right _
    (replayAll_delivers sys target (mkContextProviderEvent C target).context
      (r.cbId, v) sys.pending r hr hC hd)

theorem registerContextProviderSys_delivers (sys : Sys) (C : Ctx)
    (target : Nat) (v : Value) (sp : Bool) (r : RequestRecord)
    (hno : ∀ l ∈ sys.listeners, ¬ l.cfg.context = C)
    (hroot : sys.rootNode ∈ propPath sys.parent sys.fuel target)
    (hr : r ∈ sys.pending) (hC : r.context = C) :
    (r.cbId, v) ∈
      (registerContextProviderSys sys C (HandlerOrValue.value (some v))
        target sp).deliveries := by
  show (r.cbId, v) ∈
    (dispatchProviderEvent
      { sys with listeners := sys.listeners ++
          [{ node := getRootNode sys.parent sys.fuel target
           , cfg := { context := C
                    , handlerOrValue := HandlerOrValue.value (some v)
                    , stopPropagation := sp } }] }
      (mkContextProviderEvent C target) target).deliveries
  refine dispatchProviderEvent_delivers _ C target r v ?_ ?_ hC ?_
  · exact hroot
  · exact hr
  have hold : ∀ l ∈ sys.listeners,
      ¬ (freshRequest r).context = l.cfg.context := by
    intro l hl h
    have h2 : l.cfg.context = r.context := h.symm
    exact hno l hl (hC ▸ h2)
  exact dispatchGo_delivers sys.listeners
    { node := getRootNode sys.parent sys.fuel target
    , cfg := { context := C
             , handlerOrValue := HandlerOrValue.value (some v)
             , stopPropagation := sp } }
    sys.rootNode false (freshRequest r) v hold hC rfl
    (propPath sys.parent sys.fuel target)
    { stopped := false, deliveries := [], buffered := [] } rfl
    (getRootNode_mem_propPath sys.parent sys.fuel target)

/-- C1: late resolution.  In any system whose provider listeners all serve
contexts other than `C` (so no provider for `C` exists), dispatching a
subscribing request for `C` delivers nothing and is retained by the
resolution buffer; once `registerContextProvider` for `C` with value `v`
runs — which installs its listener and immediately dispatches a
`ContextProviderEvent` for `C` — the buffer's replay pass invokes the
requester's callback with the provider's value.  Prior registrations (for
other contexts) and buffer contents are arbitrary: only the announcement's
position in the execution matters.  The resolution buffer itself is
modelled from the spec (§4.2), as its code is not among the sources. -/
theorem late_resolution (sys : Sys) (C : Ctx) (origin target cbId : Nat)
    (v : Value) (sp : Bool)
    (hno : ∀ l ∈ sys.listeners, ¬ l.cfg.context = C)
    (hrootO : sys.rootNode ∈ propPath sys.parent sys.fuel origin)
    (hrootT : sys.rootNode ∈ propPath sys.parent sys.fuel target) :
    (dispatchRequest sys true
        (mkContextRequestEvent C origin cbId (some true)) origin).deliveries
      = sys.deliveries
    ∧ (cbId, v) ∈
      (registerContextProviderSys
        (dispatchRequest sys true
          (mkContextRequestEvent C origin cbId (some true)) origin)
        C (HandlerOrValue.value (some v)) target sp).deliveries := by
  have hold : ∀ l ∈ sys.listeners,
      ¬ (mkContextRequestEvent C origin cbId (some true)).context
        = l.cfg.context := fun l hl h => hno l hl h.symm
  constructor
  · show sys.deliveries ++
      (dispatchGo sys.listeners sys.rootNode true
        (mkContextRequestEvent C origin cbId (some true))
        (propPath sys.parent sys.fuel origin)
        { stopped := false, deliveries := [], buffered := [] }).deliveries
      = sys.deliveries
    rw [(dispatchGo_nonmatch sys.listeners sys.rootNode true _ hold
      (propPath sys.parent sys.fuel origin) _).2]
    simp
  · have hrec : recordOf (mkContextRequestEvent C origin cbId (some true)) ∈
        (dispatchRequest sys true
          (mkContextRequestEvent C origin cbId (some true)) origin).pending := by
      show recordOf (mkContextRequestEvent C origin cbId (some true)) ∈
        sys.pending ++
        (dispatchGo sys.listeners sys.rootNode true
          (mkContextRequestEvent C origin cbId (some true))
          (propPath sys.parent sys.fuel origin)
          { stopped := false, deliveries := [], buffered := [] }).buffered
      exact List.mem_append_right _
        (dispatchGo_buffers sys.listeners sys.rootNode _ hold
          (propPath sys.parent sys.fuel origin)
          { stopped := false, deliveries := [], buffered := [] } rfl hrootO)
    have hno1 : ∀ l ∈ (dispatchRequest sys true
        (mkContextRequestEvent C origin cbId (some true)) origin).listeners,
        ¬ l.cfg.context = C := hno
    have hrootT1 : (dispatchRequest sys true
        (mkContextRequestEvent C origin cbId (some true)) origin).rootNode ∈
        propPath
          (dispatchRequest sys true
            (mkContextRequestEvent C origin cbId (some true)) origin).parent
          (dispatchRequest sys true
            (mkContextRequestEvent C origin cbId (some true)) origin).fuel
          target := hrootT
    exact registerContextProviderSys_delivers _ C target v sp _
      hno1 hrootT1 hrec rfl

/-- Witness for `late_resolution` on the concrete `sysW` tree: a
subscribing request for "theme" raised at node 1 while no provider exists
delivers nothing, and the requester's callback (id 7) receives the value
42 once a provider for "theme" registers with target node 2. -/
theorem late_resolution_witness :
    (dispatchRequest sysW true
        (mkContextRequestEvent (Ctx.str "theme") 1 7 (some true)) 1).deliveries
      = sysW.deliveries
    ∧ (7, 42) ∈
      (registerContextProviderSys
        (dispatchRequest sysW true
          (mkContextRequestEvent (Ctx.str "theme") 1 7 (some true)) 1)
        (Ctx.str "theme") (HandlerOrValue.value (some 42)) 2 true).deliveries :=
  late_resolution sysW (Ctx.str "theme") 1 2 7 42 true
    (fun l hl => absurd hl (List.not_mem_nil l))
    (by decide) (by decide)

end WccgContext
